import Mathlib

/-!
# Verification of the `destream` streaming codec protocol

This file gives a shallow embedding of the protocol core of the `destream`
crate (`src/de/mod.rs`, `src/de/impls.rs`, `src/en/mod.rs`, `src/en/impls.rs`,
`destream_derive/src/lib.rs`) and proves or refutes the frozen claims about it.

Modelling conventions:
* `destream` itself defines no wire format: concrete `Decoder`/`Encoder`
  implementations are external collaborators.  Wherever a claim needs a format,
  we use a canonical self-describing format whose stream is the inductive
  `Value` below; its hint dispatch is modelled from the spec (each
  `decode_<shape>` parses a value of the named shape and invokes the single
  matching `visit_*` callback, per spec section 4.2).  Everything else
  (visitor defaults, the concrete visitors, the builders, the error
  constructors) is translated directly from the Rust source.
* Machine integers are modelled as `Int` (signed widths) and `Nat` (unsigned
  widths); the widening casts `i8 as i64` / `u8 as u64` are lossless in Rust
  (sign/zero extension) and are therefore the identity on the payload.
  The lossless cast `f32 as f64` is likewise the identity on a `Float`
  payload.
* Errors of the canonical format are `String`s: the message handed to the
  `Error::custom` constructor, which is the only constructor a format must
  implement.  Fallible operations return `Except String`.
-/

namespace Destream

/-- The decode-side `Error` trait from `src/de/mod.rs` (lines 64-85):
a format supplies `custom`; the remaining constructors have default
implementations that build a message and hand it to `custom`. -/
structure ErrorImpl (ε : Type) where
  custom : String → ε
  invalid_type : String → String → ε :=
    fun unexp exp => custom ("invalid type: " ++ unexp ++ ", expected " ++ exp)
  invalid_value : String → String → ε :=
    fun unexp exp => custom ("invalid value: " ++ unexp ++ ", expected " ++ exp)
  invalid_length : Nat → String → ε :=
    fun len exp => custom ("invalid length: " ++ toString len ++ ", expected " ++ exp)

/-- The method names of the decode-side `Error` trait in `src/de/mod.rs`
(lines 64-85): `custom` plus the three derived constructors.  The trait
declares no record-field constructors. -/
def deErrorMethods : List String :=
  ["custom", "invalid_type", "invalid_value", "invalid_length"]

/-- The method names of the encode-side `Error` trait in `src/en/mod.rs`
(lines 72-74): only `custom`. -/
def enErrorMethods : List String := ["custom"]

/-- The canonical error type used throughout this development: the error is
identified with the message given to `custom` (so `custom := id`). -/
def strError : ErrorImpl String := { custom := fun msg => msg }

/-- `Error::invalid_type` of the canonical error type. -/
def invalidType (unexp exp : String) : String := strError.invalid_type unexp exp

/-- `Error::invalid_value` of the canonical error type. -/
def invalidValue (unexp exp : String) : String := strError.invalid_value unexp exp

/-- `Error::invalid_length` of the canonical error type. -/
def invalidLength (len : Nat) (exp : String) : String := strError.invalid_length len exp

/-- Modelled from the spec: the stream of the canonical self-describing format.
A `Value` is one encoded value of any protocol shape (spec glossary: boolean,
integer of a given width, float of a given width, primitive-element array,
string, option, sequence, map, unit).  It is both what the canonical
`Encoder`'s terminal calls produce and what the canonical `Decoder` parses. -/
inductive Value : Type
  | bool (b : Bool)
  | i8 (n : Int)
  | i16 (n : Int)
  | i32 (n : Int)
  | i64 (n : Int)
  | u8 (n : Nat)
  | u16 (n : Nat)
  | u32 (n : Nat)
  | u64 (n : Nat)
  | f32 (x : Float)
  | f64 (x : Float)
  | arrayBool (xs : List Bool)
  | arrayI8 (xs : List Int)
  | arrayI16 (xs : List Int)
  | arrayI32 (xs : List Int)
  | arrayI64 (xs : List Int)
  | arrayU8 (xs : List Nat)
  | arrayU16 (xs : List Nat)
  | arrayU32 (xs : List Nat)
  | arrayU64 (xs : List Nat)
  | arrayF32 (xs : List Float)
  | arrayF64 (xs : List Float)
  | string (s : String)
  | unitVal
  | noneVal
  | someVal (v : Value)
  | seq (elems : List Value)
  | map (entries : List (Value × Value))

/-- The shape name of a stream value, used by the canonical format in
`invalid_type` errors when a hint meets the wrong shape. -/
def Value.kind : Value → String
  | .bool _ => "boolean"
  | .i8 _ => "i8"
  | .i16 _ => "i16"
  | .i32 _ => "i32"
  | .i64 _ => "i64"
  | .u8 _ => "u8"
  | .u16 _ => "u16"
  | .u32 _ => "u32"
  | .u64 _ => "u64"
  | .f32 _ => "f32"
  | .f64 _ => "f64"
  | .arrayBool _ => "boolean array"
  | .arrayI8 _ => "i8 array"
  | .arrayI16 _ => "i16 array"
  | .arrayI32 _ => "i32 array"
  | .arrayI64 _ => "i64 array"
  | .arrayU8 _ => "u8 array"
  | .arrayU16 _ => "u16 array"
  | .arrayU32 _ => "u32 array"
  | .arrayU64 _ => "u64 array"
  | .arrayF32 _ => "f32 array"
  | .arrayF64 _ => "f64 array"
  | .string _ => "string"
  | .unitVal => "unit"
  | .noneVal => "Option::None"
  | .someVal _ => "Option::Some"
  | .seq _ => "sequence"
  | .map _ => "map"

/-- The `Visitor` trait of `src/de/mod.rs` (lines 328-570), with its default
method bodies as default field values.

Field-by-field correspondence with the source (each default is the Rust
default body):
* `visit_bool`, `visit_i64`, `visit_u64`, `visit_f64`, `visit_string`,
  `visit_unit`, `visit_none`, `visit_some`, `visit_map`, `visit_seq` and the
  `visit_array_*` family default to `Err(Error::invalid_type(found, Self::expecting()))`
  with exactly the found-descriptions used in the source.
* `visit_i8`/`visit_i16`/`visit_i32` default to `self.visit_i64(v as i64)`;
  `visit_u8`/`visit_u16`/`visit_u32` default to `self.visit_u64(v as u64)`;
  `visit_f32` defaults to `self.visit_f64(v as f64)`.  The casts are lossless,
  hence the identity on the modelled payload.

The widest-width fields are declared before the narrower ones so that the
narrower defaults may refer to them; this reordering does not change the
trait's semantics.  Cursor-taking callbacks (`visit_seq`, `visit_map`,
`visit_array_*`, `visit_some`) take the canonical cursor: the not-yet-decoded
remainder of the compound value. -/
structure VisitorM (α : Type) where
  expecting : String
  visit_bool : Bool → Except String α :=
    fun v => .error (invalidType (toString v) expecting)
  visit_i64 : Int → Except String α :=
    fun v => .error (invalidType (toString v) expecting)
  visit_i8 : Int → Except String α := fun v => visit_i64 v
  visit_i16 : Int → Except String α := fun v => visit_i64 v
  visit_i32 : Int → Except String α := fun v => visit_i64 v
  visit_u64 : Nat → Except String α :=
    fun v => .error (invalidType (toString v) expecting)
  visit_u8 : Nat → Except String α := fun v => visit_u64 v
  visit_u16 : Nat → Except String α := fun v => visit_u64 v
  visit_u32 : Nat → Except String α := fun v => visit_u64 v
  visit_f64 : Float → Except String α :=
    fun v => .error (invalidType (toString v) expecting)
  visit_f32 : Float → Except String α := fun v => visit_f64 v
  visit_array_bool : List Bool → Except String α :=
    fun _ => .error (invalidType "boolean array" expecting)
  visit_array_i8 : List Int → Except String α :=
    fun _ => .error (invalidType "i8 array" expecting)
  visit_array_i16 : List Int → Except String α :=
    fun _ => .error (invalidType "i16 array" expecting)
  visit_array_i32 : List Int → Except String α :=
    fun _ => .error (invalidType "i32 array" expecting)
  visit_array_i64 : List Int → Except String α :=
    fun _ => .error (invalidType "i64 array" expecting)
  visit_array_u8 : List Nat → Except String α :=
    fun _ => .error (invalidType "u8 array" expecting)
  visit_array_u16 : List Nat → Except String α :=
    fun _ => .error (invalidType "u16 array" expecting)
  visit_array_u32 : List Nat → Except String α :=
    fun _ => .error (invalidType "u32 array" expecting)
  visit_array_u64 : List Nat → Except String α :=
    fun _ => .error (invalidType "u64 array" expecting)
  visit_array_f32 : List Float → Except String α :=
    fun _ => .error (invalidType "f32 array" expecting)
  visit_array_f64 : List Float → Except String α :=
    fun _ => .error (invalidType "f64 array" expecting)
  visit_string : String → Except String α :=
    fun v => .error (invalidType v expecting)
  visit_unit : Except String α := .error (invalidType "unit" expecting)
  visit_none : Except String α := .error (invalidType "Option::None" expecting)
  visit_some : Value → Except String α :=
    fun _ => .error (invalidType "Option::Some" expecting)
  visit_map : List (Value × Value) → Except String α :=
    fun _ => .error (invalidType "map" expecting)
  visit_seq : List Value → Except String α :=
    fun _ => .error (invalidType "sequence" expecting)

/-- Modelled from the spec: `decode_i8` of the canonical self-describing
format parses an `i8` and invokes the single matching callback `visit_i8`;
any other shape fails with `invalid_type` (spec sections 4.2, 4.2 failure). -/
def decodeI8 (vis : VisitorM α) : Value → Except String α
  | .i8 n => vis.visit_i8 n
  | v => .error (invalidType v.kind vis.expecting)

/-- Modelled from the spec: `decode_i16` of the canonical format. -/
def decodeI16 (vis : VisitorM α) : Value → Except String α
  | .i16 n => vis.visit_i16 n
  | v => .error (invalidType v.kind vis.expecting)

/-- Modelled from the spec: `decode_i32` of the canonical format. -/
def decodeI32 (vis : VisitorM α) : Value → Except String α
  | .i32 n => vis.visit_i32 n
  | v => .error (invalidType v.kind vis.expecting)

/-- Modelled from the spec: `decode_seq` of the canonical format constructs
the sequence cursor (the element list, pulled in stream order) and invokes
`visit_seq`. -/
def decodeSeq (vis : VisitorM α) : Value → Except String α
  | .seq elems => vis.visit_seq elems
  | v => .error (invalidType v.kind vis.expecting)

/-- Modelled from the spec: `decode_option` of the canonical format: an absent
optional invokes `visit_none`, a unit value invokes `visit_unit`, and a
present optional invokes `visit_some` with the decoder positioned at the
inner value (spec section 4.3: `visit_some`/`visit_none` encode optionality,
`visit_unit` the empty value). -/
def decodeOption (vis : VisitorM α) : Value → Except String α
  | .noneVal => vis.visit_none
  | .unitVal => vis.visit_unit
  | .someVal inner => vis.visit_some inner
  | v => .error (invalidType v.kind vis.expecting)

/-- Modelled from the spec: `decode_unit` of the canonical format: a unit
value invokes `visit_unit` and an absent optional invokes `visit_none`. -/
def decodeUnit (vis : VisitorM α) : Value → Except String α
  | .unitVal => vis.visit_unit
  | .noneVal => vis.visit_none
  | v => .error (invalidType v.kind vis.expecting)

/-- A `Visitor` implementing only the widest numeric callbacks `visit_i64`,
`visit_u64` and `visit_f64`; every other callback keeps its trait default. -/
def widestOnlyVisitor (e : String) (fi : Int → Except String α)
    (fu : Nat → Except String α) (ff : Float → Except String α) : VisitorM α :=
  { expecting := e, visit_i64 := fi, visit_u64 := fu, visit_f64 := ff }

/-- A `Visitor` overriding nothing: every callback keeps its trait default
from `src/de/mod.rs`. -/
def defaultVisitor (α : Type) (e : String) : VisitorM α := { expecting := e }

/-- The `AutoVisitor` generated by the `autodecode!` macro in `src/de/impls.rs`
(lines 15-49) for `i64`: `expecting` is `"i64"` and the single override is
`visit_i64(v) = Ok(v)`; every other callback keeps its trait default. -/
def autoVisitorI64 : VisitorM Int :=
  { expecting := "i64", visit_i64 := fun v => .ok v }

/-- The `AutoVisitor` generated by the `autodecode!` macro for `i32`:
`expecting` is `"i32"` and the single override is `visit_i32(v) = Ok(v)`. -/
def autoVisitorI32 : VisitorM Int :=
  { expecting := "i32", visit_i32 := fun v => .ok v }

/-- `<i32 as FromStream>::from_stream`: calls `decoder.decode_i32(AutoVisitor)`
(from the `autodecode!` macro in `src/de/impls.rs`), over the canonical
format. -/
def i32FromStream (v : Value) : Except String Int := decodeI32 autoVisitorI32 v

/-- The `OptionVisitor` of `src/de/impls.rs` (lines 78-109) instantiated at
element type `i32`: `visit_unit` and `visit_none` both return `Ok(None)`, and
`visit_some` decodes the inner value with `T::from_stream` and wraps it in
`Some`. -/
def optionVisitorI32 : VisitorM (Option Int) :=
  { expecting := "optional i32"
  , visit_unit := .ok none
  , visit_none := .ok none
  , visit_some := fun inner => (i32FromStream inner).map some }

/-- The `UnitVisitor` of `src/de/impls.rs` (lines 567-583): `visit_unit` and
`visit_none` both return `Ok(())`. -/
def unitVisitor : VisitorM Unit :=
  { expecting := "a unit value ()", visit_unit := .ok (), visit_none := .ok () }

/-- `<Option<i32> as FromStream>::from_stream`: calls
`decoder.decode_option(OptionVisitor)` (`src/de/impls.rs` lines 111-125). -/
def optionI32FromStream (v : Value) : Except String (Option Int) :=
  decodeOption optionVisitorI32 v

/-- `<() as FromStream>::from_stream`: calls `decoder.decode_unit(UnitVisitor)`
(`src/de/impls.rs` lines 585-591). -/
def unitFromStream (v : Value) : Except String Unit := decodeUnit unitVisitor v

/-! ## Encoder side (`src/en/mod.rs`) -/

/-- The state of the builder returned by `Encoder::encode_seq(len)` of the
canonical format: the length hint it was given and the elements encoded so
far, in push order (spec section 4.5). -/
structure EncodeSeqState where
  lenHint : Option Nat
  elems : List Value

/-- Modelled from the spec: `Encoder::encode_seq(len)` of the canonical
format returns a fresh sequence builder remembering the hint. -/
def encodeSeqBegin (len : Option Nat) : EncodeSeqState := ⟨len, []⟩

/-- Modelled from the spec: `EncodeSeq::encode_element` pushes one encoded
element onto the builder. -/
def EncodeSeqState.encodeElement (b : EncodeSeqState) (v : Value) : EncodeSeqState :=
  { b with elems := b.elems ++ [v] }

/-- Modelled from the spec: the terminal `EncodeSeq::end` call yields the
format's output for the whole sequence. -/
def EncodeSeqState.endSeq (b : EncodeSeqState) : Value := .seq b.elems

/-- Modelled from the spec: `Encoder::encode_i32` of the canonical format
performs an immediate terminal encode of the primitive. -/
def encodeI32 (n : Int) : Value := .i32 n

/-- `iterator_len_hint` from `src/en/mod.rs` (lines 488-496): a list
iterator's `size_hint()` is exact, so the hint is `Some(len)`. -/
def iteratorLenHint (xs : List α) : Option Nat := some xs.length

/-- `Encoder::collect_seq` from `src/en/mod.rs` (lines 433-444) applied to a
sequence of `i32` values: `encode_seq(iterator_len_hint(&iter))`, then one
`encode_element` per item in iteration order, then `end()`. -/
def collectSeqI32 (xs : List Int) : Value :=
  (xs.foldl (fun b n => b.encodeElement (encodeI32 n)) (encodeSeqBegin (iteratorLenHint xs))).endSeq

/-! ## Sequence decoding (`decode_seq!` macro, `src/de/impls.rs` lines 160-265) -/

/-- `size_hint::cautious` from `src/de/mod.rs` (lines 48-55):
`cmp::min(hint.unwrap_or(0), 4096)`. -/
def cautious (hint : Option Nat) : Nat := min (hint.getD 0) 4096

/-- The `while let Some(value) = seq.next_element(..)? { values.push(value) }`
loop of `SeqVisitor::visit_seq` (the `decode_seq!` macro) specialised to
`Vec<i32>`: `acc` is the `values` accumulator, and the canonical `SeqAccess`
cursor yields `Ok(Some(element))` by decoding the next stream value with the
element's `FromStream` impl, or `Ok(None)` at the end of the sequence. -/
def vecVisitSeqLoopI32 (acc : List Int) : List Value → Except String (List Int)
  | [] => .ok acc
  | v :: rest => do
      let n ← i32FromStream v
      vecVisitSeqLoopI32 (acc ++ [n]) rest

/-- `SeqVisitor::visit_seq` for `Vec<i32>` including its first line
`Vec::with_capacity(size_hint::cautious(seq.size_hint()))`: the result is the
pair of the initial capacity (the only thing the size hint is used for) and
the outcome of the pull loop (which never consults the hint). -/
def vecVisitSeqWithCapacityI32 (hint : Option Nat) (elems : List Value) :
    Nat × Except String (List Int) :=
  (cautious hint, vecVisitSeqLoopI32 [] elems)

/-- The `SeqVisitor` for `Vec<i32>` generated by the `decode_seq!` macro:
`expecting` is `"a sequence"` and the single override is `visit_seq`. -/
def vecSeqVisitorI32 : VisitorM (List Int) :=
  { expecting := "a sequence", visit_seq := fun elems => vecVisitSeqLoopI32 [] elems }

/-- `<Vec<i32> as FromStream>::from_stream`: calls
`decoder.decode_seq(SeqVisitor)`. -/
def vecI32FromStream (v : Value) : Except String (List Int) :=
  decodeSeq vecSeqVisitorI32 v

/-! ## Fixed-arity compounds (`decode_tuple!` / `decode_array!` macros) -/

/-- The `visit_seq` body generated by the `decode_tuple!` macro
(`src/de/impls.rs` lines 442-497) and the `decode_array!` macro (lines
364-438) for arity `n ≥ 1`, at the shape level (each present stream element
decodes successfully): the macro pulls one element per position `0 .. n-1`
and, if `next_element` returns `None` at position `idx`, returns
`Err(Error::invalid_length(idx, Self::expecting()))`.  `idx` is the running
position counter (the `$n` token of the macro), `remaining` the number of
positions still to fill. -/
def fixedVisitSeq (expecting : String) : Nat → Nat → List α → Except String (List α)
  | _, 0, _ => .ok []
  | idx, _ + 1, [] => .error (invalidLength idx expecting)
  | idx, remaining + 1, a :: rest =>
      (fixedVisitSeq expecting (idx + 1) remaining rest).map (fun tl => a :: tl)

/-- The `visit_seq` of the `ArrayVisitor` for `[T; 0]` (`src/de/impls.rs`
lines 335-349): a single `next_element` pull must return `None`, otherwise
the visitor fails with `invalid_length(0, ...)`. -/
def arrayVisitSeqZero : List α → Except String (List α)
  | [] => .ok []
  | _ :: _ => .error (invalidLength 0 "a zero-length tuple")

/-! ## Chunked byte decoding (`BytesVisitor::visit_array_u8`) -/

/-- The chunks returned by successive `ArrayAccess::buffer(&mut buf)` calls of
the canonical list-backed array cursor when driven with the fixed 4096-slot
buffer of `BytesVisitor::visit_array_u8`: each call writes
`min(4096, remaining)` elements from the front of the remaining stream, and
the loop stops at the first call that returns `0`. -/
def bytesChunks (rem : List Nat) : List (List Nat) :=
  if _h : (rem.take 4096).length = 0 then []
  else rem.take 4096 :: bytesChunks (rem.drop 4096)
termination_by rem.length
decreasing_by
  simp only [List.length_take, List.length_drop] at *
  omega

/-- `BytesVisitor::visit_array_u8` from `src/de/impls.rs` (lines 604-622):
`let mut buf = [0u8; 4096]; loop { let len = array.buffer(&mut buf)?;
if len == 0 break; bytes.extend_from_slice(&buf[..len]); }`, against the
canonical list-backed `ArrayAccess`.  The result is the accumulated byte
vector. -/
def bytesVisitArrayU8 (rem : List Nat) : List Nat :=
  if _h : (rem.take 4096).length = 0 then []
  else rem.take 4096 ++ bytesVisitArrayU8 (rem.drop 4096)
termination_by rem.length
decreasing_by
  simp only [List.length_take, List.length_drop] at *
  omega

/-! ## `IgnoredAny` (`src/de/impls.rs` lines 706-831) -/

mutual

/-- Whether a stream value contains no primitive-element array shape at any
depth (the shapes decoded through `ArrayAccess`). -/
def Value.arrayFree : Value → Bool
  | .arrayBool _ => false
  | .arrayI8 _ => false
  | .arrayI16 _ => false
  | .arrayI32 _ => false
  | .arrayI64 _ => false
  | .arrayU8 _ => false
  | .arrayU16 _ => false
  | .arrayU32 _ => false
  | .arrayU64 _ => false
  | .arrayF32 _ => false
  | .arrayF64 _ => false
  | .someVal v => v.arrayFree
  | .seq elems => arrayFreeList elems
  | .map entries => arrayFreeEntries entries
  | _ => true

/-- `Value.arrayFree` over the elements of a sequence. -/
def arrayFreeList : List Value → Bool
  | [] => true
  | v :: rest => v.arrayFree && arrayFreeList rest

/-- `Value.arrayFree` over the entries of a map. -/
def arrayFreeEntries : List (Value × Value) → Bool
  | [] => true
  | (k, v) :: rest => k.arrayFree && v.arrayFree && arrayFreeEntries rest

end

mutual

/-- `<IgnoredAny as FromStream>::from_stream` (`src/de/impls.rs` lines
825-831): `decoder.decode_ignored_any(IgnoredAny)` over the canonical
self-describing format, whose discard hint dispatches each shape to the
single matching `visit_*` of the `IgnoredAny` visitor (spec section 4.2).
Branch by branch:
* `bool`, `i64`, `u64`, `f64`, `string`, `none`, `unit` hit the overrides at
  `src/de/impls.rs` lines 713-782, each `Ok(IgnoredAny)`;
* the narrower numeric shapes hit the trait defaults which forward to the
  overridden `visit_i64`/`visit_u64`/`visit_f64`, hence `Ok(IgnoredAny)`;
* `someVal` hits the `visit_some` override (lines 763-769), which recursively
  runs `IgnoredAny::from_stream` on the inner value;
* `seq`/`map` hit the `visit_seq`/`visit_map` overrides (lines 784-806),
  which gobble the elements in a pull loop;
* the array shapes hit the trait defaults `visit_array_*`
  (`src/de/mod.rs` lines 442-527), each of which fails with
  `invalid_type(<shape> array, Self::expecting())` where `expecting()` is
  `"anything at all"` — `IgnoredAny` overrides none of them. -/
def ignoredAnyFromStream : Value → Except String Unit
  | .bool _ => .ok ()
  | .i8 _ => .ok ()
  | .i16 _ => .ok ()
  | .i32 _ => .ok ()
  | .i64 _ => .ok ()
  | .u8 _ => .ok ()
  | .u16 _ => .ok ()
  | .u32 _ => .ok ()
  | .u64 _ => .ok ()
  | .f32 _ => .ok ()
  | .f64 _ => .ok ()
  | .arrayBool _ => .error (invalidType "boolean array" "anything at all")
  | .arrayI8 _ => .error (invalidType "i8 array" "anything at all")
  | .arrayI16 _ => .error (invalidType "i16 array" "anything at all")
  | .arrayI32 _ => .error (invalidType "i32 array" "anything at all")
  | .arrayI64 _ => .error (invalidType "i64 array" "anything at all")
  | .arrayU8 _ => .error (invalidType "u8 array" "anything at all")
  | .arrayU16 _ => .error (invalidType "u16 array" "anything at all")
  | .arrayU32 _ => .error (invalidType "u32 array" "anything at all")
  | .arrayU64 _ => .error (invalidType "u64 array" "anything at all")
  | .arrayF32 _ => .error (invalidType "f32 array" "anything at all")
  | .arrayF64 _ => .error (invalidType "f64 array" "anything at all")
  | .string _ => .ok ()
  | .unitVal => .ok ()
  | .noneVal => .ok ()
  | .someVal inner => ignoredAnyFromStream inner
  | .seq elems => ignoredAnySeqLoop elems
  | .map entries => ignoredAnyMapLoop entries

/-- The `visit_seq` override of `IgnoredAny` (`src/de/impls.rs` lines
784-793): `while let Some(IgnoredAny) = seq.next_element(())? {}`, each pull
recursively decoding one element as `IgnoredAny`. -/
def ignoredAnySeqLoop : List Value → Except String Unit
  | [] => .ok ()
  | v :: rest => do
      let _ ← ignoredAnyFromStream v
      ignoredAnySeqLoop rest

/-- The `visit_map` override of `IgnoredAny` (`src/de/impls.rs` lines
795-806): `while let Some(IgnoredAny) = map.next_key(())? { let _: IgnoredAny
= map.next_value(())?; }`. -/
def ignoredAnyMapLoop : List (Value × Value) → Except String Unit
  | [] => .ok ()
  | (k, v) :: rest => do
      let _ ← ignoredAnyFromStream k
      let _ ← ignoredAnyFromStream v
      ignoredAnyMapLoop rest

end

/-! ## The derive macro (`destream_derive/src/lib.rs`) -/

/-- The field-name transformation applied by `impl_from_stream`
(`destream_derive/src/lib.rs` lines 13-20): `f.to_string().replace('_', "")`. -/
def stripUnderscores (s : String) : String :=
  String.mk (s.data.filter (fun c => c ≠ '_'))

/-- The outcome of the generated `visit_map`: either a completed record or a
`panic` (the generated unknown-key arm is `unimplemented!()`, which panics). -/
inductive MapOutcome (α : Type) where
  | ok (value : α)
  | panicked
deriving DecidableEq

/-- One matched arm of the generated `match key.as_str()`: set the first
field whose transformed name equals the key (match arms are tried in
declaration order) to the entry's decoded value. -/
def setFirstField : List (String × Option Value) → String → Value → List (String × Option Value)
  | [], _, _ => []
  | (f, cur) :: rest, key, v =>
      if stripUnderscores f = key then (f, some v) :: rest
      else (f, cur) :: setFirstField rest key v

/-- The `while let Some(key) = map.next_key::<String>(())?` loop of the
generated `visit_map` (`destream_derive/src/lib.rs` lines 44-52): a key whose
string matches a transformed field name stores the entry's value in that
field's accumulator; any other key hits the `_ => unimplemented!()` arm,
which panics.  Entry values are taken at the shape level (each recognised
entry's value decodes successfully). -/
def derivedVisitMapLoop (fields : List String) :
    List (String × Value) → List (String × Option Value) →
    MapOutcome (List (String × Option Value))
  | [], accs => .ok accs
  | (key, v) :: rest, accs =>
      if (fields.map stripUnderscores).contains key then
        derivedVisitMapLoop fields rest (setFirstField accs key v)
      else .panicked

/-- The generated `visit_map` for a record with the given field names: one
`None` accumulator per field, the key-dispatch loop, then construction of the
record from the accumulators (`Ok(#name { #fields })`). -/
def derivedFromStreamMap (fields : List String) (entries : List (String × Value)) :
    MapOutcome (List (String × Option Value)) :=
  derivedVisitMapLoop fields entries (fields.map (fun f => (f, none)))

/-! ## Round-trip coverage: the remaining supported shapes

`ToStream`/`IntoStream` for each primitive is the `autoencode!` macro of
`src/en/impls.rs` (lines 11-39): it calls the matching
`Encoder::encode_<shape>` hint, which for the canonical format produces the
corresponding `Value` immediately (spec section 4.5).  `FromStream` for each
primitive is the `autodecode!` macro of `src/de/impls.rs` (lines 15-56): it
calls the matching `Decoder::decode_<shape>` hint with an `AutoVisitor`
overriding only that shape's callback with `Ok(v)`. -/

/-- Modelled from the spec: `Encoder::encode_bool` of the canonical format. -/
def encodeBool (b : Bool) : Value := .bool b

/-- Modelled from the spec: `Encoder::encode_i8` of the canonical format. -/
def encodeI8 (n : Int) : Value := .i8 n

/-- Modelled from the spec: `Encoder::encode_i16` of the canonical format. -/
def encodeI16 (n : Int) : Value := .i16 n

/-- Modelled from the spec: `Encoder::encode_i64` of the canonical format. -/
def encodeI64 (n : Int) : Value := .i64 n

/-- Modelled from the spec: `Encoder::encode_u8` of the canonical format. -/
def encodeU8 (n : Nat) : Value := .u8 n

/-- Modelled from the spec: `Encoder::encode_u16` of the canonical format. -/
def encodeU16 (n : Nat) : Value := .u16 n

/-- Modelled from the spec: `Encoder::encode_u32` of the canonical format. -/
def encodeU32 (n : Nat) : Value := .u32 n

/-- Modelled from the spec: `Encoder::encode_u64` of the canonical format. -/
def encodeU64 (n : Nat) : Value := .u64 n

/-- Modelled from the spec: `Encoder::encode_f32` of the canonical format. -/
def encodeF32 (x : Float) : Value := .f32 x

/-- Modelled from the spec: `Encoder::encode_f64` of the canonical format. -/
def encodeF64 (x : Float) : Value := .f64 x

/-- Modelled from the spec: `Encoder::encode_str` of the canonical format
(`ToStream for String`, `src/en/impls.rs` lines 73-77, calls it). -/
def encodeStr (s : String) : Value := .string s

/-- Modelled from the spec: `Encoder::encode_unit` of the canonical format
(`ToStream for PhantomData`, `src/en/impls.rs` lines 139-143, calls it). -/
def encodeUnit : Value := .unitVal

/-- Modelled from the spec: `Encoder::encode_none` of the canonical format. -/
def encodeNone : Value := .noneVal

/-- Modelled from the spec: `Encoder::encode_some` of the canonical format,
wrapping the encoding of the inner value. -/
def encodeSome (v : Value) : Value := .someVal v

/-- Modelled from the spec: `Encoder::encode_bytes` of the canonical format
(`ToStream for Bytes`, `src/en/impls.rs` lines 99-103, calls it), producing
the `u8`-array shape. -/
def encodeBytes (bs : List Nat) : Value := .arrayU8 bs

/-- `IntoStream for Option<T>` (`src/en/impls.rs` lines 113-120) at element
type `i32`: `Some(value)` is `encode_some(value)`, `None` is
`encode_none()`. -/
def optionI32ToStream : Option Int → Value
  | Option.some v => encodeSome (encodeI32 v)
  | Option.none => encodeNone

/-- Modelled from the spec: `decode_bool` of the canonical format. -/
def decodeBool (vis : VisitorM α) : Value → Except String α
  | .bool b => vis.visit_bool b
  | v => .error (invalidType v.kind vis.expecting)

/-- Modelled from the spec: `decode_i64` of the canonical format. -/
def decodeI64 (vis : VisitorM α) : Value → Except String α
  | .i64 n => vis.visit_i64 n
  | v => .error (invalidType v.kind vis.expecting)

/-- Modelled from the spec: `decode_u8` of the canonical format. -/
def decodeU8 (vis : VisitorM α) : Value → Except String α
  | .u8 n => vis.visit_u8 n
  | v => .error (invalidType v.kind vis.expecting)

/-- Modelled from the spec: `decode_u16` of the canonical format. -/
def decodeU16 (vis : VisitorM α) : Value → Except String α
  | .u16 n => vis.visit_u16 n
  | v => .error (invalidType v.kind vis.expecting)

/-- Modelled from the spec: `decode_u32` of the canonical format. -/
def decodeU32 (vis : VisitorM α) : Value → Except String α
  | .u32 n => vis.visit_u32 n
  | v => .error (invalidType v.kind vis.expecting)

/-- Modelled from the spec: `decode_u64` of the canonical format. -/
def decodeU64 (vis : VisitorM α) : Value → Except String α
  | .u64 n => vis.visit_u64 n
  | v => .error (invalidType v.kind vis.expecting)

/-- Modelled from the spec: `decode_f32` of the canonical format. -/
def decodeF32 (vis : VisitorM α) : Value → Except String α
  | .f32 x => vis.visit_f32 x
  | v => .error (invalidType v.kind vis.expecting)

/-- Modelled from the spec: `decode_f64` of the canonical format. -/
def decodeF64 (vis : VisitorM α) : Value → Except String α
  | .f64 x => vis.visit_f64 x
  | v => .error (invalidType v.kind vis.expecting)

/-- Modelled from the spec: `decode_string` of the canonical format. -/
def decodeString (vis : VisitorM α) : Value → Except String α
  | .string s => vis.visit_string s
  | v => .error (invalidType v.kind vis.expecting)

/-- Modelled from the spec: `decode_map` of the canonical format constructs
the map cursor (the entry list, pulled in stream order with strictly
alternating `next_key`/`next_value`) and invokes `visit_map`. -/
def decodeMap (vis : VisitorM α) : Value → Except String α
  | .map entries => vis.visit_map entries
  | v => .error (invalidType v.kind vis.expecting)

/-- Modelled from the spec: `decode_tuple(len)` of the canonical format: the
self-describing stream carries the sequence itself, so the type-level length
is not consulted by this format (spec section 4.5: `encode_tuple` differs
from `encode_seq` only in that the length is known at the type level); the
visitor's pull loop enforces the arity. -/
def decodeTuple (_len : Nat) (vis : VisitorM α) : Value → Except String α
  | .seq elems => vis.visit_seq elems
  | v => .error (invalidType v.kind vis.expecting)

/-- Modelled from the spec: `decode_bytes` of the canonical format dispatches
the `u8`-array shape to `visit_array_u8` with the array cursor. -/
def decodeBytes (vis : VisitorM α) : Value → Except String α
  | .arrayU8 xs => vis.visit_array_u8 xs
  | v => .error (invalidType v.kind vis.expecting)

/-- The `autodecode!` visitor for `bool`. -/
def autoVisitorBool : VisitorM Bool :=
  { expecting := "bool", visit_bool := fun v => .ok v }

/-- The `autodecode!` visitor for `i8`. -/
def autoVisitorI8 : VisitorM Int :=
  { expecting := "i8", visit_i8 := fun v => .ok v }

/-- The `autodecode!` visitor for `i16`. -/
def autoVisitorI16 : VisitorM Int :=
  { expecting := "i16", visit_i16 := fun v => .ok v }

/-- The `autodecode!` visitor for `u8`. -/
def autoVisitorU8 : VisitorM Nat :=
  { expecting := "u8", visit_u8 := fun v => .ok v }

/-- The `autodecode!` visitor for `u16`. -/
def autoVisitorU16 : VisitorM Nat :=
  { expecting := "u16", visit_u16 := fun v => .ok v }

/-- The `autodecode!` visitor for `u32`. -/
def autoVisitorU32 : VisitorM Nat :=
  { expecting := "u32", visit_u32 := fun v => .ok v }

/-- The `autodecode!` visitor for `u64`. -/
def autoVisitorU64 : VisitorM Nat :=
  { expecting := "u64", visit_u64 := fun v => .ok v }

/-- The `autodecode!` visitor for `f32`. -/
def autoVisitorF32 : VisitorM Float :=
  { expecting := "f32", visit_f32 := fun v => .ok v }

/-- The `autodecode!` visitor for `f64`. -/
def autoVisitorF64 : VisitorM Float :=
  { expecting := "f64", visit_f64 := fun v => .ok v }

/-- The `autodecode!` visitor for `String` (overrides `visit_string`). -/
def autoVisitorString : VisitorM String :=
  { expecting := "String", visit_string := fun v => .ok v }

/-- `<bool as FromStream>::from_stream`. -/
def boolFromStream (v : Value) : Except String Bool := decodeBool autoVisitorBool v

/-- `<i8 as FromStream>::from_stream`. -/
def i8FromStream (v : Value) : Except String Int := decodeI8 autoVisitorI8 v

/-- `<i16 as FromStream>::from_stream`. -/
def i16FromStream (v : Value) : Except String Int := decodeI16 autoVisitorI16 v

/-- `<i64 as FromStream>::from_stream`. -/
def i64FromStream (v : Value) : Except String Int := decodeI64 autoVisitorI64 v

/-- `<u8 as FromStream>::from_stream`. -/
def u8FromStream (v : Value) : Except String Nat := decodeU8 autoVisitorU8 v

/-- `<u16 as FromStream>::from_stream`. -/
def u16FromStream (v : Value) : Except String Nat := decodeU16 autoVisitorU16 v

/-- `<u32 as FromStream>::from_stream`. -/
def u32FromStream (v : Value) : Except String Nat := decodeU32 autoVisitorU32 v

/-- `<u64 as FromStream>::from_stream`. -/
def u64FromStream (v : Value) : Except String Nat := decodeU64 autoVisitorU64 v

/-- `<f32 as FromStream>::from_stream`. -/
def f32FromStream (v : Value) : Except String Float := decodeF32 autoVisitorF32 v

/-- `<f64 as FromStream>::from_stream`. -/
def f64FromStream (v : Value) : Except String Float := decodeF64 autoVisitorF64 v

/-- `<String as FromStream>::from_stream`. -/
def stringFromStream (v : Value) : Except String String :=
  decodeString autoVisitorString v

/-- The `PhantomDataVisitor` of `src/de/impls.rs` (lines 129-144):
`expecting` is `"unit"` and the single override is `visit_unit`, returning
`Ok(PhantomData)` (modelled as the unit value). -/
def phantomDataVisitor : VisitorM Unit :=
  { expecting := "unit", visit_unit := .ok () }

/-- `<PhantomData<T> as FromStream>::from_stream`: calls
`decoder.decode_unit(PhantomDataVisitor)` (`src/de/impls.rs` lines
146-156). -/
def phantomDataFromStream (v : Value) : Except String Unit :=
  decodeUnit phantomDataVisitor v

/-- `<Bytes as Visitor>.visit_array_u8` packaged as the `BytesVisitor` of
`src/de/impls.rs` (lines 595-644): `expecting` is `"bytes"` and the
`visit_array_u8` override runs the 4096-byte buffer loop. -/
def bytesVisitor : VisitorM (List Nat) :=
  { expecting := "bytes", visit_array_u8 := fun xs => .ok (bytesVisitArrayU8 xs) }

/-- `<Bytes as FromStream>::from_stream`: calls
`decoder.decode_bytes(BytesVisitor)` (`src/de/impls.rs` lines 646-655). -/
def bytesFromStream (v : Value) : Except String (List Nat) :=
  decodeBytes bytesVisitor v

/-- The state of the builder returned by `Encoder::encode_tuple(len)` of the
canonical format: the type-level length and the elements pushed so far. -/
structure EncodeTupleState where
  len : Nat
  elems : List Value

/-- Modelled from the spec: `Encoder::encode_tuple(len)` of the canonical
format returns a fresh fixed-arity builder. -/
def encodeTupleBegin (len : Nat) : EncodeTupleState := ⟨len, []⟩

/-- Modelled from the spec: `EncodeTuple::encode_element` pushes one encoded
element onto the builder. -/
def EncodeTupleState.encodeElement (b : EncodeTupleState) (v : Value) : EncodeTupleState :=
  { b with elems := b.elems ++ [v] }

/-- Modelled from the spec: the terminal `EncodeTuple::end` call yields the
format's output for the whole fixed-arity compound. -/
def EncodeTupleState.endTuple (b : EncodeTupleState) : Value := .seq b.elems

/-- The `encode_tuple!`/`encode_array!` impls of `src/en/impls.rs` (lines
166-301) at element shape `i32`: `encode_tuple(len)`, one `encode_element`
per element in order, then `end()`; at the shape level the tuple or fixed
array of arity `n` is its element list of length `n`. -/
def tupleToStreamI32 (xs : List Int) : Value :=
  (xs.foldl (fun b n => b.encodeElement (encodeI32 n)) (encodeTupleBegin xs.length)).endTuple

/-- The `visit_seq` body of the `decode_tuple!`/`decode_array!` macros with
the element pulls decoding `i32` values from the canonical cursor: one
`next_element` per position, `invalid_length(idx, expecting)` if the
sequence ends early (the error path proved for C4 at the shape level). -/
def tupleVisitSeqI32 (expecting : String) : Nat → Nat → List Value → Except String (List Int)
  | _, 0, _ => .ok []
  | idx, _ + 1, [] => .error (invalidLength idx expecting)
  | idx, remaining + 1, v :: rest => do
      let a ← i32FromStream v
      let tl ← tupleVisitSeqI32 expecting (idx + 1) remaining rest
      pure (a :: tl)

/-- `<(i32, ..., i32) as FromStream>::from_stream` for arity `n`: calls
`decoder.decode_tuple(n, TupleVisitor)` whose `visit_seq` pulls `n`
elements. -/
def tupleI32FromStream (n : Nat) (v : Value) : Except String (List Int) :=
  decodeTuple n
    { expecting := "a tuple of size " ++ toString n
    , visit_seq := fun elems => tupleVisitSeqI32 ("a tuple of size " ++ toString n) 0 n elems }
    v

/-- The state of the builder returned by `Encoder::encode_map(len)` of the
canonical format: the length hint and the entries pushed so far. -/
structure EncodeMapState where
  lenHint : Option Nat
  entries : List (Value × Value)

/-- Modelled from the spec: `Encoder::encode_map(len)` of the canonical
format returns a fresh map builder remembering the hint. -/
def encodeMapBegin (len : Option Nat) : EncodeMapState := ⟨len, []⟩

/-- Modelled from the spec: `EncodeMap::encode_entry` (the default of
`encode_key` followed by `encode_value`, `src/en/mod.rs` lines 133-140)
pushes one encoded key-value pair onto the builder. -/
def EncodeMapState.encodeEntry (b : EncodeMapState) (k v : Value) : EncodeMapState :=
  { b with entries := b.entries ++ [(k, v)] }

/-- Modelled from the spec: the terminal `EncodeMap::end` call yields the
format's output for the whole map. -/
def EncodeMapState.endMap (b : EncodeMapState) : Value := .map b.entries

/-- `Encoder::collect_map` from `src/en/mod.rs` (lines 452-465) at key shape
string and value shape `i32`: `encode_map(iterator_len_hint(&iter))`, one
`encode_entry` per pair in iteration order, then `end()`. -/
def collectMapStrI32 (kvs : List (String × Int)) : Value :=
  (kvs.foldl (fun b p => b.encodeEntry (encodeStr p.1) (encodeI32 p.2))
    (encodeMapBegin (iteratorLenHint kvs))).endMap

/-- The `while let Some(key) = map.next_key(())? { let value =
map.next_value(())?; values.insert(key, value); }` loop of
`MapVisitor::visit_map` (the `decode_map!` macro, `src/de/impls.rs` lines
501-563) at key shape string and value shape `i32`.  The receiving map is
represented by its entry list in stream order (the claim's ordering proviso:
`BTreeMap`/`HashMap` do not preserve insertion order, only contents). -/
def mapVisitMapLoopStrI32 (acc : List (String × Int)) :
    List (Value × Value) → Except String (List (String × Int))
  | [] => .ok acc
  | (kv, vv) :: rest => do
      let k ← stringFromStream kv
      let v ← i32FromStream vv
      mapVisitMapLoopStrI32 (acc ++ [(k, v)]) rest

/-- The `MapVisitor` of the `decode_map!` macro at key shape string and value
shape `i32`: `expecting` is `"a map"` and the single override is
`visit_map`. -/
def mapStrI32Visitor : VisitorM (List (String × Int)) :=
  { expecting := "a map", visit_map := fun entries => mapVisitMapLoopStrI32 [] entries }

/-- `<map of string to i32 as FromStream>::from_stream`: calls
`decoder.decode_map(MapVisitor)`. -/
def mapStrI32FromStream (v : Value) : Except String (List (String × Int)) :=
  decodeMap mapStrI32Visitor v

/-! ## Theorems -/

/-- C2: the default `visit_i8`/`visit_i16`/`visit_i32` forward to `visit_i64`,
`visit_u8`/`visit_u16`/`visit_u32` to `visit_u64`, and `visit_f32` to
`visit_f64`, each with the value widened losslessly (identity on the modelled
payload); hence a `Visitor` implementing only the widest callbacks receives
values decoded via `decode_i8`/`decode_i16`/`decode_i32`. -/
theorem claim2_numeric_widening :
    ∀ (α : Type) (e : String) (fi : Int → Except String α)
      (fu : Nat → Except String α) (ff : Float → Except String α)
      (v : Int) (w : Nat) (x : Float),
      (widestOnlyVisitor e fi fu ff).visit_i8 v = fi v
    ∧ (widestOnlyVisitor e fi fu ff).visit_i16 v = fi v
    ∧ (widestOnlyVisitor e fi fu ff).visit_i32 v = fi v
    ∧ (widestOnlyVisitor e fi fu ff).visit_u8 w = fu w
    ∧ (widestOnlyVisitor e fi fu ff).visit_u16 w = fu w
    ∧ (widestOnlyVisitor e fi fu ff).visit_u32 w = fu w
    ∧ (widestOnlyVisitor e fi fu ff).visit_f32 x = ff x
    ∧ decodeI8 (widestOnlyVisitor e fi fu ff) (Value.i8 v) = fi v
    ∧ decodeI16 (widestOnlyVisitor e fi fu ff) (Value.i16 v) = fi v
    ∧ decodeI32 (widestOnlyVisitor e fi fu ff) (Value.i32 v) = fi v := by
  intro α e fi fu ff v w x
  exact ⟨rfl, rfl, rfl, rfl, rfl, rfl, rfl, rfl, rfl, rfl⟩

/-- C5 (counterexample): the decode-side `Error` trait of `src/de/mod.rs`
declares no `missing_field`, `duplicate_field` or `unknown_field`
constructor, and the encode-side `Error` trait declares only `custom`;
the claimed record-field constructors do not exist. -/
theorem claim5_counterexample :
    "missing_field" ∉ deErrorMethods
  ∧ "duplicate_field" ∉ deErrorMethods
  ∧ "unknown_field" ∉ deErrorMethods
  ∧ "missing_field" ∉ enErrorMethods := by
  refine ⟨?_, ?_, ?_, ?_⟩ <;> decide

/-- C5 (amended): the decode error taxonomy provides exactly `custom`,
`invalid_type`, `invalid_value` and `invalid_length`; every constructor other
than `custom` has a default implementation derived from `custom` with the
stated message (so a format need only implement `custom`), and the
record-field constructors `missing_field`/`duplicate_field`/`unknown_field`
are not part of the trait. -/
theorem claim5_error_taxonomy_amended :
    ∀ (ε : Type) (c : String → ε) (u e x : String) (n : Nat),
      (({ custom := c } : ErrorImpl ε)).custom u = c u
    ∧ (({ custom := c } : ErrorImpl ε)).invalid_type u e
        = c ("invalid type: " ++ u ++ ", expected " ++ e)
    ∧ (({ custom := c } : ErrorImpl ε)).invalid_value u e
        = c ("invalid value: " ++ u ++ ", expected " ++ e)
    ∧ (({ custom := c } : ErrorImpl ε)).invalid_length n x
        = c ("invalid length: " ++ toString n ++ ", expected " ++ x)
    ∧ "missing_field" ∉ deErrorMethods
    ∧ "duplicate_field" ∉ deErrorMethods
    ∧ "unknown_field" ∉ deErrorMethods := by
  intro ε c u e x n
  exact ⟨rfl, rfl, rfl, rfl, by decide, by decide, by decide⟩

/-- C7 (counterexample): a concrete visitor that does not override the `i8`
shape (the `autodecode!` visitor for `i64`, which overrides only `visit_i64`)
receives `visit_i8(5)` and the default implementation succeeds with `Ok(5)`
by forwarding to `visit_i64` — the decode result is not an error, refuting
the claim that every non-overridden callback fails with `invalid_type`. -/
theorem claim7_counterexample :
    autoVisitorI64.visit_i8 5 = .ok 5
  ∧ autoVisitorI64.visit_i8 5 ≠ .error (invalidType "5" "i64") :=
  ⟨rfl, fun h => nomatch h⟩

/-- C7 (amended): for every callback other than the narrowing numeric ones
(`visit_i8`/`visit_i16`/`visit_i32`, `visit_u8`/`visit_u16`/`visit_u32`,
`visit_f32`, which instead default-forward to the widest width), the default
implementation fails with `invalid_type` naming the visitor's declared
`expecting()` description; in particular a visitor overriding nothing fails
on every shape, the narrowing callbacks failing through the widest default. -/
theorem claim7_default_errors_amended :
    ∀ (α : Type) (e : String) (b : Bool) (n : Int) (u : Nat) (x : Float)
      (s : String) (inner : Value) (xs : List Value)
      (es : List (Value × Value)) (bs : List Bool) (ns : List Int)
      (us : List Nat) (fs : List Float),
      (defaultVisitor α e).visit_bool b = .error (invalidType (toString b) e)
    ∧ (defaultVisitor α e).visit_i64 n = .error (invalidType (toString n) e)
    ∧ (defaultVisitor α e).visit_u64 u = .error (invalidType (toString u) e)
    ∧ (defaultVisitor α e).visit_f64 x = .error (invalidType (toString x) e)
    ∧ (defaultVisitor α e).visit_string s = .error (invalidType s e)
    ∧ (defaultVisitor α e).visit_unit = .error (invalidType "unit" e)
    ∧ (defaultVisitor α e).visit_none = .error (invalidType "Option::None" e)
    ∧ (defaultVisitor α e).visit_some inner = .error (invalidType "Option::Some" e)
    ∧ (defaultVisitor α e).visit_map es = .error (invalidType "map" e)
    ∧ (defaultVisitor α e).visit_seq xs = .error (invalidType "sequence" e)
    ∧ (defaultVisitor α e).visit_array_bool bs = .error (invalidType "boolean array" e)
    ∧ (defaultVisitor α e).visit_array_i8 ns = .error (invalidType "i8 array" e)
    ∧ (defaultVisitor α e).visit_array_i16 ns = .error (invalidType "i16 array" e)
    ∧ (defaultVisitor α e).visit_array_i32 ns = .error (invalidType "i32 array" e)
    ∧ (defaultVisitor α e).visit_array_i64 ns = .error (invalidType "i64 array" e)
    ∧ (defaultVisitor α e).visit_array_u8 us = .error (invalidType "u8 array" e)
    ∧ (defaultVisitor α e).visit_array_u16 us = .error (invalidType "u16 array" e)
    ∧ (defaultVisitor α e).visit_array_u32 us = .error (invalidType "u32 array" e)
    ∧ (defaultVisitor α e).visit_array_u64 us = .error (invalidType "u64 array" e)
    ∧ (defaultVisitor α e).visit_array_f32 fs = .error (invalidType "f32 array" e)
    ∧ (defaultVisitor α e).visit_array_f64 fs = .error (invalidType "f64 array" e)
    ∧ (defaultVisitor α e).visit_i8 n = .error (invalidType (toString n) e)
    ∧ (defaultVisitor α e).visit_u8 u = .error (invalidType (toString u) e)
    ∧ (defaultVisitor α e).visit_f32 x = .error (invalidType (toString x) e) := by
  intro α e b n u x s inner xs es bs ns us fs
  exact ⟨rfl, rfl, rfl, rfl, rfl, rfl, rfl, rfl, rfl, rfl, rfl, rfl, rfl,
    rfl, rfl, rfl, rfl, rfl, rfl, rfl, rfl, rfl, rfl, rfl⟩

/-- C8: the size hint reported by a sequence cursor affects only the
pre-allocated capacity of the receiving `Vec`, which is capped at
`min(hint.unwrap_or(0), 4096)` by `size_hint::cautious`; the decoded
collection is identical under any two hints because the visitor loops on
`next_element` until it returns `None` and never consults the hint. -/
theorem claim8_size_hint_independence :
    ∀ (hint other : Option Nat) (elems : List Value),
      (vecVisitSeqWithCapacityI32 hint elems).2 = (vecVisitSeqWithCapacityI32 other elems).2
    ∧ (vecVisitSeqWithCapacityI32 hint elems).2 = vecVisitSeqLoopI32 [] elems
    ∧ (vecVisitSeqWithCapacityI32 hint elems).1 = min (hint.getD 0) 4096
    ∧ (vecVisitSeqWithCapacityI32 hint elems).1 ≤ 4096 := by
  intro hint other elems
  exact ⟨rfl, rfl, rfl, min_le_right _ _⟩

/-- C10: decoding `Option<i32>` via `decode_option` yields `Ok(None)` both on
an absent optional (`visit_none`) and on a unit value (`visit_unit`), and
decoding `()` via `decode_unit` yields `Ok(())` both on a unit value and on
an absent optional; a present optional still decodes its payload. -/
theorem claim10_option_unit_interchange :
    optionI32FromStream Value.noneVal = .ok none
  ∧ optionI32FromStream Value.unitVal = .ok none
  ∧ unitFromStream Value.unitVal = .ok ()
  ∧ unitFromStream Value.noneVal = .ok ()
  ∧ optionI32FromStream (Value.someVal (Value.i32 7)) = .ok (some 7) :=
  ⟨rfl, rfl, rfl, rfl, rfl⟩

/-- Folding `encode_element` over a list of `i32`s appends their encodings to
the builder in iteration order. -/
theorem collectSeq_foldl_elems (xs : List Int) (b : EncodeSeqState) :
    (xs.foldl (fun b n => b.encodeElement (encodeI32 n)) b).elems
      = b.elems ++ xs.map Value.i32 := by
  induction xs generalizing b with
  | nil => simp
  | cons x rest ih =>
      rw [List.foldl_cons, ih]
      simp [EncodeSeqState.encodeElement, encodeI32, List.append_assoc]

/-- The `Vec<i32>` pull loop applied to a stream of `i32` encodings collects
exactly those values, in order, after the accumulator. -/
theorem vecVisitSeqLoop_i32_map (xs : List Int) (acc : List Int) :
    vecVisitSeqLoopI32 acc (xs.map Value.i32) = .ok (acc ++ xs) := by
  induction xs generalizing acc with
  | nil => simp [vecVisitSeqLoopI32]
  | cons x rest ih =>
      have hx : i32FromStream (Value.i32 x) = .ok x := rfl
      simp only [List.map_cons, vecVisitSeqLoopI32, hx, bind, Except.bind, ih]
      simp [List.append_assoc]

/-- The byte chunks concatenate back to the original stream. -/
theorem bytesChunks_join (rem : List Nat) : (bytesChunks rem).flatten = rem := by
  induction rem using bytesChunks.induct with
  | case1 rem h =>
      have hnil : rem = [] := by simpa using h
      rw [bytesChunks, dif_pos h]
      simp [hnil]
  | case2 rem h ih =>
      rw [bytesChunks, dif_neg h]
      simp only [List.flatten_cons, ih]
      exact List.take_append_drop 4096 rem

/-- The byte-accumulation loop produces the concatenation of the chunks. -/
theorem bytesVisitArrayU8_eq_join (rem : List Nat) :
    bytesVisitArrayU8 rem = (bytesChunks rem).flatten := by
  induction rem using bytesChunks.induct with
  | case1 rem h =>
      rw [bytesVisitArrayU8, dif_pos h, bytesChunks, dif_pos h]
      rfl
  | case2 rem h ih =>
      rw [bytesVisitArrayU8, dif_neg h, bytesChunks, dif_neg h]
      simp only [List.flatten_cons, ih]

/-- Every chunk the loop sees is a nonempty fill of the 4096-slot buffer. -/
theorem bytesChunks_bounded (rem : List Nat) :
    ((bytesChunks rem).all fun c => decide (c.length ≤ 4096) && decide (c.length ≠ 0)) = true := by
  induction rem using bytesChunks.induct with
  | case1 rem h =>
      rw [bytesChunks, dif_pos h]
      rfl
  | case2 rem h ih =>
      rw [bytesChunks, dif_neg h]
      have h1 : (rem.take 4096).length ≤ 4096 := by
        simp [List.length_take]
      have h2 : (rem.take 4096).length ≠ 0 := h
      rw [List.all_cons, ih, Bool.and_true, Bool.and_eq_true,
        decide_eq_true_eq, decide_eq_true_eq]
      exact ⟨h1, h2⟩

/-- Folding tuple `encode_element` over a list of `i32`s appends their
encodings to the fixed-arity builder in iteration order. -/
theorem tupleToStream_foldl_elems (xs : List Int) (b : EncodeTupleState) :
    (xs.foldl (fun b n => b.encodeElement (encodeI32 n)) b).elems
      = b.elems ++ xs.map Value.i32 := by
  induction xs generalizing b with
  | nil => simp
  | cons x rest ih =>
      rw [List.foldl_cons, ih]
      simp [EncodeTupleState.encodeElement, encodeI32, List.append_assoc]

/-- The fixed-arity pull loop applied to exactly as many `i32` encodings as
its arity decodes them all, in order. -/
theorem tupleVisitSeqI32_map (e : String) (xs : List Int) :
    ∀ idx : Nat, tupleVisitSeqI32 e idx xs.length (xs.map Value.i32) = .ok xs := by
  induction xs with
  | nil => intro idx; rfl
  | cons x rest ih =>
      intro idx
      have hx : i32FromStream (Value.i32 x) = .ok x := rfl
      simp only [List.map_cons, List.length_cons, tupleVisitSeqI32, hx,
        bind, Except.bind, ih (idx + 1)]
      rfl

/-- Folding `encode_entry` over string-to-`i32` pairs appends their encodings
to the map builder in iteration order. -/
theorem collectMap_foldl_entries (kvs : List (String × Int)) (b : EncodeMapState) :
    (kvs.foldl (fun b p => b.encodeEntry (encodeStr p.1) (encodeI32 p.2)) b).entries
      = b.entries ++ kvs.map (fun p => (Value.string p.1, Value.i32 p.2)) := by
  induction kvs generalizing b with
  | nil => simp
  | cons p rest ih =>
      rw [List.foldl_cons, ih]
      simp [EncodeMapState.encodeEntry, encodeStr, encodeI32, List.append_assoc]

/-- The map pull loop applied to a stream of string-to-`i32` entry encodings
collects exactly those entries, in stream order, after the accumulator. -/
theorem mapVisitMapLoop_strI32_map (kvs : List (String × Int)) (acc : List (String × Int)) :
    mapVisitMapLoopStrI32 acc (kvs.map fun p => (Value.string p.1, Value.i32 p.2))
      = .ok (acc ++ kvs) := by
  induction kvs generalizing acc with
  | nil => simp [mapVisitMapLoopStrI32]
  | cons p rest ih =>
      have hk : stringFromStream (Value.string p.1) = .ok p.1 := rfl
      have hv : i32FromStream (Value.i32 p.2) = .ok p.2 := rfl
      simp only [List.map_cons, mapVisitMapLoopStrI32, hk, hv, bind, Except.bind, ih]
      simp [List.append_assoc]

/-- C1: for every supported shape in the canonical model, decoding the stream
produced by encoding a value yields the value back: every primitive width
(`bool`, `i8`-`i64`, `u8`-`u64`, `f32`/`f64`) through its `autoencode!`
encoder and `autodecode!` visitor; `String`; the unit shape (both the
`PhantomData` and the `()` decoders against `encode_unit`); `Option<i32>` in
both variants; a byte sequence through `encode_bytes` and the chunked
`BytesVisitor`; a fixed-arity tuple or array of `i32`s of any arity through
`encode_tuple`/`decode_tuple`; a string-to-`i32` map through
`collect_map`/`decode_map` (entries taken in stream order, the claim's
ordering proviso for unordered containers); and a sequence of `i32`s through
`collect_seq`/`decode_seq` — in particular `[1, 2, 3]` via
`encode_seq(Some(3))`, three `encode_element` calls and `end()`, decoded by
the `Vec` visitor pulling via `SeqAccess::next_element`.  `Vec` represents
the `decode_seq!` family (`BTreeSet`, `BinaryHeap`, `HashSet`, `LinkedList`,
`VecDeque` share the same generated pull loop with a different insert). -/
theorem claim1_roundtrip :
    (∀ b : Bool, boolFromStream (encodeBool b) = .ok b)
  ∧ (∀ n : Int, i8FromStream (encodeI8 n) = .ok n)
  ∧ (∀ n : Int, i16FromStream (encodeI16 n) = .ok n)
  ∧ (∀ n : Int, i32FromStream (encodeI32 n) = .ok n)
  ∧ (∀ n : Int, i64FromStream (encodeI64 n) = .ok n)
  ∧ (∀ n : Nat, u8FromStream (encodeU8 n) = .ok n)
  ∧ (∀ n : Nat, u16FromStream (encodeU16 n) = .ok n)
  ∧ (∀ n : Nat, u32FromStream (encodeU32 n) = .ok n)
  ∧ (∀ n : Nat, u64FromStream (encodeU64 n) = .ok n)
  ∧ (∀ x : Float, f32FromStream (encodeF32 x) = .ok x)
  ∧ (∀ x : Float, f64FromStream (encodeF64 x) = .ok x)
  ∧ (∀ s : String, stringFromStream (encodeStr s) = .ok s)
  ∧ phantomDataFromStream encodeUnit = .ok ()
  ∧ unitFromStream encodeUnit = .ok ()
  ∧ (∀ o : Option Int, optionI32FromStream (optionI32ToStream o) = .ok o)
  ∧ (∀ bs : List Nat, bytesFromStream (encodeBytes bs) = .ok bs)
  ∧ (∀ xs : List Int, tupleI32FromStream xs.length (tupleToStreamI32 xs) = .ok xs)
  ∧ (∀ kvs : List (String × Int), mapStrI32FromStream (collectMapStrI32 kvs) = .ok kvs)
  ∧ (∀ xs : List Int, vecI32FromStream (collectSeqI32 xs) = .ok xs)
  ∧ vecI32FromStream (collectSeqI32 [1, 2, 3]) = .ok [1, 2, 3] := by
  have hbytes : ∀ bs : List Nat, bytesFromStream (encodeBytes bs) = .ok bs := by
    intro bs
    show Except.ok (bytesVisitArrayU8 bs) = .ok bs
    rw [bytesVisitArrayU8_eq_join, bytesChunks_join]
  have htuple : ∀ xs : List Int, tupleI32FromStream xs.length (tupleToStreamI32 xs) = .ok xs := by
    intro xs
    have h1 := tupleToStream_foldl_elems xs (encodeTupleBegin xs.length)
    have h2 : (encodeTupleBegin xs.length).elems = [] := rfl
    rw [h2, List.nil_append] at h1
    simp only [tupleI32FromStream, tupleToStreamI32, EncodeTupleState.endTuple, decodeTuple]
    rw [h1, tupleVisitSeqI32_map]
  have hmap : ∀ kvs : List (String × Int), mapStrI32FromStream (collectMapStrI32 kvs) = .ok kvs := by
    intro kvs
    have h1 := collectMap_foldl_entries kvs (encodeMapBegin (iteratorLenHint kvs))
    have h2 : (encodeMapBegin (iteratorLenHint kvs)).entries = [] := rfl
    rw [h2, List.nil_append] at h1
    simp only [mapStrI32FromStream, collectMapStrI32, EncodeMapState.endMap, decodeMap,
      mapStrI32Visitor]
    rw [h1, mapVisitMapLoop_strI32_map, List.nil_append]
  have hseq : ∀ xs : List Int, vecI32FromStream (collectSeqI32 xs) = .ok xs := by
    intro xs
    have h1 := collectSeq_foldl_elems xs (encodeSeqBegin (iteratorLenHint xs))
    have h2 : (encodeSeqBegin (iteratorLenHint xs)).elems = [] := rfl
    rw [h2, List.nil_append] at h1
    simp only [vecI32FromStream, collectSeqI32, EncodeSeqState.endSeq, decodeSeq,
      vecSeqVisitorI32]
    rw [h1, vecVisitSeqLoop_i32_map, List.nil_append]
  refine ⟨fun b => rfl, fun n => rfl, fun n => rfl, fun n => rfl, fun n => rfl,
    fun n => rfl, fun n => rfl, fun n => rfl, fun n => rfl, fun x => rfl, fun x => rfl,
    fun s => rfl, rfl, rfl, ?_, hbytes, htuple, hmap, hseq, hseq [1, 2, 3]⟩
  intro o
  cases o <;> rfl

/-- If the sequence runs out while `remaining` positions are still unfilled,
the fixed-arity pull loop fails with `invalid_length` at the position counter
reached when the sequence ended. -/
theorem fixedVisitSeq_short (e : String) (elems : List α) :
    ∀ (idx remaining : Nat), elems.length < remaining →
      fixedVisitSeq e idx remaining elems
        = .error (invalidLength (idx + elems.length) e) := by
  induction elems with
  | nil =>
      intro idx remaining h
      match remaining, h with
      | remaining + 1, _ => simp [fixedVisitSeq]
  | cons a rest ih =>
      intro idx remaining h
      match remaining, h with
      | remaining + 1, h =>
        have hr := ih (idx + 1) remaining (by simpa using h)
        have harith : idx + 1 + rest.length = idx + (a :: rest).length := by
          simp
          omega
        rw [harith] at hr
        simp only [fixedVisitSeq, hr]
        rfl

/-- C4: for every fixed-arity compound of arity `n` (the `decode_tuple!` and
`decode_array!` visitors, instantiated in the source for tuples of size 1-16
and arrays of length 1-32), decoding against a sequence that ends after
`k < n` elements fails with `invalid_length` reporting `k`, the number of
elements actually present, as the found length. -/
theorem claim4_invalid_length :
    ∀ (α : Type) (e : String) (n k : Nat) (elems : List α),
      elems.length = k → k < n →
      fixedVisitSeq e 0 n elems = .error (invalidLength k e) := by
  intro α e n k elems hk hkn
  subst hk
  simpa using fixedVisitSeq_short e elems 0 n hkn

/-- C4 (witness): a tuple of arity 3 decoded against a sequence of length 2
fails with `invalid_length(2, ...)`. -/
theorem claim4_witness :
    ([10, 20] : List Int).length = 2 ∧ 2 < 3
  ∧ fixedVisitSeq "a tuple of size 3" 0 3 ([10, 20] : List Int)
      = .error (invalidLength 2 "a tuple of size 3") :=
  ⟨rfl, by decide, claim4_invalid_length Int "a tuple of size 3" 3 2 [10, 20] rfl (by decide)⟩


/-- C6: `BytesVisitor::visit_array_u8` decodes any byte sequence by
repeatedly filling the fixed 4096-slot buffer, stopping exactly at the first
`buffer` call that returns 0 (each earlier chunk is nonempty and at most 4096
bytes), and the decoded result equals the concatenation of all returned
chunks, which is the original sequence, regardless of its length. -/
theorem claim6_chunked_bytes :
    ∀ bytes : List Nat,
      bytesVisitArrayU8 bytes = (bytesChunks bytes).flatten
    ∧ (bytesChunks bytes).flatten = bytes
    ∧ bytesVisitArrayU8 bytes = bytes
    ∧ ((bytesChunks bytes).all fun c => decide (c.length ≤ 4096) && decide (c.length ≠ 0)) = true := by
  intro bytes
  refine ⟨bytesVisitArrayU8_eq_join bytes, bytesChunks_join bytes, ?_, bytesChunks_bounded bytes⟩
  rw [bytesVisitArrayU8_eq_join, bytesChunks_join]

mutual

/-- `decode_ignored_any` with `IgnoredAny` succeeds on every value free of
primitive-element array shapes. -/
theorem ignoredAnyOkOfArrayFree :
    ∀ v : Value, v.arrayFree = true → ignoredAnyFromStream v = .ok ()
  | .bool _ => fun _ => rfl
  | .i8 _ => fun _ => rfl
  | .i16 _ => fun _ => rfl
  | .i32 _ => fun _ => rfl
  | .i64 _ => fun _ => rfl
  | .u8 _ => fun _ => rfl
  | .u16 _ => fun _ => rfl
  | .u32 _ => fun _ => rfl
  | .u64 _ => fun _ => rfl
  | .f32 _ => fun _ => rfl
  | .f64 _ => fun _ => rfl
  | .arrayBool _ => fun h => by simp [Value.arrayFree] at h
  | .arrayI8 _ => fun h => by simp [Value.arrayFree] at h
  | .arrayI16 _ => fun h => by simp [Value.arrayFree] at h
  | .arrayI32 _ => fun h => by simp [Value.arrayFree] at h
  | .arrayI64 _ => fun h => by simp [Value.arrayFree] at h
  | .arrayU8 _ => fun h => by simp [Value.arrayFree] at h
  | .arrayU16 _ => fun h => by simp [Value.arrayFree] at h
  | .arrayU32 _ => fun h => by simp [Value.arrayFree] at h
  | .arrayU64 _ => fun h => by simp [Value.arrayFree] at h
  | .arrayF32 _ => fun h => by simp [Value.arrayFree] at h
  | .arrayF64 _ => fun h => by simp [Value.arrayFree] at h
  | .string _ => fun _ => rfl
  | .unitVal => fun _ => rfl
  | .noneVal => fun _ => rfl
  | .someVal inner => fun h => by
      have hi := ignoredAnyOkOfArrayFree inner (by simpa [Value.arrayFree] using h)
      simpa [ignoredAnyFromStream] using hi
  | .seq elems => fun h => by
      have hl := ignoredAnySeqLoopOk elems (by simpa [Value.arrayFree] using h)
      simpa [ignoredAnyFromStream] using hl
  | .map entries => fun h => by
      have he := ignoredAnyMapLoopOk entries (by simpa [Value.arrayFree] using h)
      simpa [ignoredAnyFromStream] using he

/-- The sequence gobble loop succeeds on array-free elements. -/
theorem ignoredAnySeqLoopOk :
    ∀ l : List Value, arrayFreeList l = true → ignoredAnySeqLoop l = .ok ()
  | [] => fun _ => rfl
  | v :: rest => fun h => by
      simp only [arrayFreeList, Bool.and_eq_true] at h
      have h1 := ignoredAnyOkOfArrayFree v h.1
      have h2 := ignoredAnySeqLoopOk rest h.2
      simp only [ignoredAnySeqLoop, h1, h2]
      rfl

/-- The map gobble loop succeeds on array-free entries. -/
theorem ignoredAnyMapLoopOk :
    ∀ l : List (Value × Value), arrayFreeEntries l = true → ignoredAnyMapLoop l = .ok ()
  | [] => fun _ => rfl
  | (k, v) :: rest => fun h => by
      simp only [arrayFreeEntries, Bool.and_eq_true] at h
      have h1 := ignoredAnyOkOfArrayFree k h.1.1
      have h2 := ignoredAnyOkOfArrayFree v h.1.2
      have h3 := ignoredAnyMapLoopOk rest h.2
      simp only [ignoredAnyMapLoop, h1, h2, h3]
      rfl

end

/-- C3 (counterexample): `decode_ignored_any` invoked on a `u8`-array shape
dispatches to `visit_array_u8`, which `IgnoredAny` does not override; the
trait default fails with `invalid_type`, so the array shape is not consumed
and discarded successfully, refuting the claim for the primitive-element
array shapes. -/
theorem claim3_counterexample :
    ignoredAnyFromStream (Value.arrayU8 [7]) =
      .error "invalid type: u8 array, expected anything at all" := rfl

/-- C3 (amended): the `IgnoredAny` visitor invoked by `decode_ignored_any`
successfully consumes and discards a value of every shape in the protocol
other than the primitive-element array shapes — boolean, every integer and
float width (the narrow widths through the forwarding defaults), string,
option (absent or present), unit, sequence and map, recursively — returning
`Ok(IgnoredAny)`; on any value containing a primitive-element array shape at
the point dispatched, the non-overridden `visit_array_*` default fails with
`invalid_type` instead. -/
theorem claim3_ignored_any_amended :
    ∀ v : Value, v.arrayFree = true → ignoredAnyFromStream v = .ok () :=
  ignoredAnyOkOfArrayFree

/-- C3 (witness): a nested array-free value of mixed shapes is consumed and
discarded successfully. -/
theorem claim3_witness :
    (Value.seq [Value.bool true, Value.i8 (-3), Value.someVal (Value.i32 5),
      Value.string "x", Value.map [(Value.string "k", Value.unitVal)],
      Value.noneVal]).arrayFree = true
  ∧ ignoredAnyFromStream
      (Value.seq [Value.bool true, Value.i8 (-3), Value.someVal (Value.i32 5),
        Value.string "x", Value.map [(Value.string "k", Value.unitVal)],
        Value.noneVal]) = .ok () :=
  ⟨rfl, claim3_ignored_any_amended
    (Value.seq [Value.bool true, Value.i8 (-3), Value.someVal (Value.i32 5),
      Value.string "x", Value.map [(Value.string "k", Value.unitVal)],
      Value.noneVal]) rfl⟩

/-- Reaching an unrecognised key anywhere in the entry list makes the
generated key-dispatch loop panic, whatever the accumulator state. -/
theorem derivedVisitMapLoop_panics (fields : List String) :
    ∀ (pre : List (String × Value)) (k : String) (v : Value)
      (post : List (String × Value)) (accs : List (String × Option Value)),
      (pre.all fun ent => (fields.map stripUnderscores).contains ent.1) = true →
      ((fields.map stripUnderscores).contains k) = false →
      derivedVisitMapLoop fields (pre ++ (k, v) :: post) accs = .panicked := by
  intro pre
  induction pre with
  | nil =>
      intro k v post accs _ hk
      simp only [List.nil_append, derivedVisitMapLoop]
      exact if_neg (by rw [hk]; exact Bool.false_ne_true)
  | cons ent rest ih =>
      intro k v post accs hall hk
      simp only [List.all_cons, Bool.and_eq_true] at hall
      obtain ⟨hent, hrest⟩ := hall
      obtain ⟨k0, v0⟩ := ent
      simp only [List.cons_append, derivedVisitMapLoop, hent, if_true]
      exact ih k v post _ hrest hk

/-- C9 (counterexample): decoding a map containing the single entry
`("zzz", 1)` against the derived implementation for a record with field `a`
reaches the `_ => unimplemented!()` arm and panics; the record decode does
not complete successfully and no value is skipped. -/
theorem claim9_counterexample :
    derivedFromStreamMap ["a"] [("zzz", Value.i32 1)] = .panicked := rfl

/-- C9 (amended): for every record type decoded with the derived `FromStream`
implementation, when the map being decoded reaches a key that matches no
declared (underscore-stripped) field name, the generated `visit_map` hits its
`_ => unimplemented!()` arm and panics; it neither skips the entry via
`decode_ignored_any` nor completes the record decode. -/
theorem claim9_unknown_field_amended :
    ∀ (fields : List String) (pre : List (String × Value)) (k : String)
      (v : Value) (post : List (String × Value)),
      (pre.all fun ent => (fields.map stripUnderscores).contains ent.1) = true →
      ((fields.map stripUnderscores).contains k) = false →
      derivedFromStreamMap fields (pre ++ (k, v) :: post) = .panicked := by
  intro fields pre k v post hpre hk
  exact derivedVisitMapLoop_panics fields pre k v post _ hpre hk

/-- C9 (witness): a record with fields `a`, `b` decoded against the entries
`[("a", 1), ("zzz", 2)]` panics on the unrecognised key `"zzz"`. -/
theorem claim9_witness :
    (([("a", Value.i32 1)] : List (String × Value)).all
        fun ent => ((["a", "b"].map stripUnderscores).contains ent.1)) = true
  ∧ (((["a", "b"].map stripUnderscores).contains "zzz") = false)
  ∧ derivedFromStreamMap ["a", "b"]
      ([("a", Value.i32 1)] ++ ("zzz", Value.u8 2) :: []) = .panicked :=
  ⟨rfl, rfl, claim9_unknown_field_amended ["a", "b"] [("a", Value.i32 1)]
    "zzz" (Value.u8 2) [] rfl rfl⟩

end Destream
